import Mathlib

/-!
Verification of the asset-pipeline orchestration engine in
`crates/build/src/pipelines/mod.rs`: manifest discovery, pipeline dispatch,
the fan-out primitive, and the tag/category metadata merge.

The Rust code is shallowly embedded:
* async effects (downloads, the content sink, manifest decoding) are passed
  explicitly as an `Env` of pure functions; a download/decode that can fail
  returns `Option`, where `none` stands for the failure that the source
  `.unwrap()`s on;
* a Rust panic (`unwrap` on a failed download/decode, or the `todo!()`
  dispatch arm) is represented as `Except.error` carrying a `Panic` value,
  so "the whole batch aborts" is "the function returns `.error`";
* the `futures` stream combinators in `process_pipelines` are sequential
  (`filter_map` / `flat_map` / `then` without any `buffer_unordered`), so the
  embedding processes files left to right and short-circuits at the first
  panic, exactly like a panic unwinding the stream.
-/

/-- A Rust panic, used for the two panic sources in the embedded code:
the `_ => todo!()` dispatch arm and `.unwrap()` on a failed download or
manifest decode. -/
inductive Panic
  | todoUnimplemented
  | unwrapFailure
  deriving DecidableEq, Repr

/-- An absolute asset URL (`AbsAssetUrl` from `elements_std`, an external
collaborator); only its path string matters to the orchestration engine. -/
structure AbsAssetUrl where
  path : String
  deriving DecidableEq, Repr

/-- Split a character list at every occurrence of `sep` (structural
recursion, so it computes by `decide`/`rfl`; the core `String.splitOn` is
well-founded recursion and does not). -/
def splitChar (sep : Char) : List Char → List (List Char)
  | [] => [[]]
  | c :: cs =>
    let r := splitChar sep cs
    if c = sep then [] :: r
    else
      match r with
      | [] => [[c]]
      | s :: ss => (c :: s) :: ss

/-- Intercalate `sep` between character-list segments. -/
def joinChar (sep : Char) : List (List Char) → List Char
  | [] => []
  | [s] => s
  | s :: ss => s ++ sep :: joinChar sep ss

/-- Suffix test on strings (Rust `str::ends_with`), via character lists so
that it computes by `decide`/`rfl`. -/
def strEndsWith (s suf : String) : Bool :=
  suf.data.isSuffixOf s.data

/-- Modelled from the spec: `AbsAssetUrl::file_name` lives in `elements_std`
(external collaborator, not under src/): the final `/`-separated segment of
the path, `none` when empty. The source calls it as
`file.path().file_name().unwrap()`. -/
def AbsAssetUrl.fileName (u : AbsAssetUrl) : Option String :=
  match (splitChar '/' u.path.data).getLast? with
  | none => none
  | some s => if s = [] then none else some (String.mk s)

/-- Modelled from the spec: `AbsAssetUrl::extension` lives in `elements_std`
(external collaborator, not under src/): the part of the file name after its
last `.`, `none` when the name has no dot. -/
def AbsAssetUrl.extension (u : AbsAssetUrl) : Option String :=
  match u.fileName with
  | none => none
  | some nm =>
    match splitChar '.' nm.data with
    | [] => none
    | [_] => none
    | ps => (ps.getLast?).map String.mk

/-- The directory prefix of a path, up to and including the final `/`
(empty when the path has no `/`). -/
def dirname (p : String) : String :=
  match splitChar '/' p.data with
  | [] => ""
  | [_] => ""
  | ps => String.mk (joinChar '/' ps.dropLast ++ ['/'])

/-- Modelled from the spec: `AbsAssetUrl::relative_path` lives in
`elements_std` (external collaborator, not under src/): the given path made
relative to the directory containing `root`. -/
def AbsAssetUrl.relative_path (root : AbsAssetUrl) (p : String) : String :=
  let d := dirname root.path
  if d.data.isPrefixOf p.data then String.mk (p.data.drop d.data.length) else p

/-- Modelled from the spec: `with_extension` on relative paths (external
collaborator, not under src/): replace the extension of the path with `ext`. -/
def withExtension (p ext : String) : String :=
  match splitChar '.' p.data with
  | [] => p ++ "." ++ ext
  | [_] => p ++ "." ++ ext
  | ps => String.mk (joinChar '.' ps.dropLast) ++ "." ++ ext

/-- Embeds `AssetType` from `elements_std` (external); only the `ScriptBundle`
variant is used by the embedded code. -/
inductive AssetType
  | ScriptBundle
  deriving DecidableEq, Repr

/-- Embeds `OutAssetPreview` from `out_asset.rs`; only the `None` variant is used
by the embedded code. -/
inductive OutAssetPreview
  | None
  deriving DecidableEq, Repr

/-- Embeds `OutAssetContent` from `out_asset.rs`; `Content` points at a location
returned by the content sink. -/
inductive OutAssetContent
  | Content (url : AbsAssetUrl)
  deriving DecidableEq, Repr

/-- Embeds `OutAsset` (the OutputArtifact), with the fields the source constructs:
`sub_asset`, `type_`, `hidden`, `name`, `tags`, `categories`, `preview`,
`content`, `source`. Modelled from the spec: `out_asset.rs` is not under
src/; per the spec data model, `categories[i]` is a *set* of labels
(the source merges into it via `HashSet`), embedded as `Finset String`,
while `tags` is an ordered sequence. -/
structure OutAsset where
  sub_asset : Option String
  type_ : AssetType
  hidden : Bool
  name : String
  tags : List String
  categories : List (Finset String)
  preview : OutAssetPreview
  content : OutAssetContent
  source : Option AbsAssetUrl
  deriving DecidableEq

/-- Embeds `PipelineConfig`, the tagged union selecting a processing strategy.
`ScriptBundles` is the one implemented variant in the source; the
extension-point kinds are modelled from the spec: `Models`, `Materials`
and ` Audio` are the declared-but-unimplemented kinds (commented out in
`mod.rs`, named by the spec as extension points whose dispatch is the
`_ => todo!()` arm). -/
inductive PipelineConfig
  | ScriptBundles
  | Models
  | Materials
  | Audio
  deriving DecidableEq, Repr

/-- Embeds `Pipeline`: one pipeline declaration from a manifest
(`{pipeline, sources, tags, categories}`). -/
structure Pipeline where
  pipeline : PipelineConfig
  sources : List String
  tags : List String
  categories : List (List String)
  deriving DecidableEq, Repr

/-- Embeds `ProcessCtx`: the batch-wide context. The effectful fields of the Rust
struct (`assets`, `write_file`, `on_status`, `on_error`) are modelled
separately as the `Env`; the data fields are kept here. -/
structure ProcessCtx where
  files : List AbsAssetUrl
  input_file_filter : Option String
  deriving DecidableEq, Repr

/-- Embeds `PipelineCtx` from `context.rs` (fields as used by `mod.rs`):
the batch context, the owning pipeline, and the manifest's location. -/
structure PipelineCtx where
  process_ctx : ProcessCtx
  pipeline : Pipeline
  root : AbsAssetUrl
  deriving DecidableEq, Repr

/-- The effectful collaborators, as pure functions: `download_bytes` and the
two manifest decoders return `none` exactly when the corresponding Rust call
fails (the source `.unwrap()`s each of them); `writeFile` is the content
sink, returning the stable location for bytes written at a logical path. -/
structure Env where
  downloadBytes : AbsAssetUrl → Option (List UInt8)
  writeFile : String → List UInt8 → AbsAssetUrl
  downloadToml : AbsAssetUrl → Option (List Pipeline)
  downloadJson : AbsAssetUrl → Option (List Pipeline)

/-- Sequentially run `g` on every element, concatenating the produced lists;
the first panic aborts the whole computation. This is the collect/flatten
shape shared by the fan-out primitive and the orchestrator's stream. -/
def collectExcept {α β : Type} (g : α → Except Panic (List β)) :
    List α → Except Panic (List β)
  | [] => .ok []
  | x :: xs =>
    match g x with
    | .error e => .error e
    | .ok r =>
      match collectExcept g xs with
      | .error e => .error e
      | .ok rs => .ok (r ++ rs)

/-- The artifact list of a successful dispatch (`[]` for an aborted one);
only used to state results about runs in which every dispatch succeeded. -/
def okList {β : Type} : Except Panic (List β) → List β
  | .ok l => l
  | .error _ => []

/-- Modelled from the spec: `PipelineCtx::process_files`, the fan-out
primitive (`context.rs` is not under src/). Filters the batch's full input
file list by the predicate and applies the transform to every match,
flattening the per-file artifact lists; a panic inside a transform aborts
the batch (reference behavior). -/
def PipelineCtx.process_files (ctx : PipelineCtx) (pred : AbsAssetUrl → Bool)
    (transform : AbsAssetUrl → Except Panic (List OutAsset)) :
    Except Panic (List OutAsset) :=
  collectExcept transform (ctx.process_ctx.files.filter pred)

/-- The match predicate of the script-bundle strategy:
`|f| f.extension() == Some("script_bundle".to_string())`. -/
def scriptBundlePred (f : AbsAssetUrl) : Bool :=
  f.extension == some "script_bundle"

/-- The per-file transform of the script-bundle strategy: download the
file's bytes (`unwrap` on failure), write them through the content sink at
`ctx.root.relative_path(file.path()).with_extension("script_bundle")`, and
produce the single `OutAsset` the source constructs (the `file_name()`
`unwrap` is the second panic source). -/
def scriptBundleTransform (env : Env) (ctx : PipelineCtx) (file : AbsAssetUrl) :
    Except Panic (List OutAsset) :=
  match env.downloadBytes file with
  | none => .error .unwrapFailure
  | some bundle =>
    let content := env.writeFile
      (withExtension (ctx.root.relative_path file.path) "script_bundle") bundle
    match file.fileName with
    | none => .error .unwrapFailure
    | some nm =>
      .ok [{ sub_asset := none
             type_ := AssetType.ScriptBundle
             hidden := false
             name := nm
             tags := []
             categories := []
             preview := OutAssetPreview.None
             content := OutAssetContent.Content content
             source := some file }]

/-- The dispatch `match` in `Pipeline::process`: the script-bundle kind runs
the fan-out primitive with `scriptBundlePred`/`scriptBundleTransform`; every
other kind hits the `_ => todo!()` arm, a panic. -/
def runStrategy (env : Env) (ctx : PipelineCtx) :
    PipelineConfig → Except Panic (List OutAsset)
  | PipelineConfig.ScriptBundles =>
    ctx.process_files scriptBundlePred (scriptBundleTransform env ctx)
  | _ => .error Panic.todoUnimplemented

/-- The category-merge loop of `Pipeline::process`:
`for i in 0..asset.categories.len() { if let Some(cat) = self.categories.get(i)
{ asset.categories[i].extend(cat.iter().cloned().collect::<HashSet<_>>()) } }`,
written as simultaneous recursion over the artifact's slots (which bound the
loop) and the declaration's entries. -/
def mergeCats : List (List String) → List (Finset String) → List (Finset String)
  | _, [] => []
  | [], cs => cs
  | cat :: decl, c :: cs => (c ∪ cat.toFinset) :: mergeCats decl cs

/-- The metadata-merge body of `Pipeline::process`, applied to one
strategy-produced asset: `asset.tags.extend(self.tags.clone())` followed by
the category-merge loop. -/
def mergeAsset (p : Pipeline) (asset : OutAsset) : OutAsset :=
  { asset with
    tags := asset.tags ++ p.tags
    categories := mergeCats p.categories asset.categories }

/-- Embeds `Pipeline::process`: dispatch on the pipeline kind, then merge the
declaration's metadata into every produced asset. -/
def Pipeline.process (p : Pipeline) (env : Env) (ctx : PipelineCtx) :
    Except Panic (List OutAsset) :=
  match runStrategy env ctx p.pipeline with
  | .error e => .error e
  | .ok assets => .ok (assets.map (mergeAsset p))

/-- Manifest discovery for one file (the `filter_map` body of
`process_pipelines`): a path ending in `pipeline.toml` is decoded as TOML, a
path ending in `pipeline.json` as JSON (each decode `.unwrap()`ed), and any
other file is skipped (`return None`). -/
def discoverManifest (env : Env) (file : AbsAssetUrl) :
    Except Panic (Option (List Pipeline)) :=
  if strEndsWith file.path "pipeline.toml" then
    match env.downloadToml file with
    | some ps => .ok (some ps)
    | none => .error .unwrapFailure
  else if strEndsWith file.path "pipeline.json" then
    match env.downloadJson file with
    | some ps => .ok (some ps)
    | none => .error .unwrapFailure
  else
    .ok none

/-- One input file's contribution to `process_pipelines`: discover its
manifest (if any), then run every declared pipeline through
`Pipeline::process` with a fresh `PipelineCtx`, concatenating the results. -/
def processManifestFile (env : Env) (ctx : ProcessCtx) (file : AbsAssetUrl) :
    Except Panic (List OutAsset) :=
  match discoverManifest env file with
  | .error e => .error e
  | .ok none => .ok []
  | .ok (some pipelines) =>
    collectExcept
      (fun pipeline =>
        pipeline.process env
          { process_ctx := ctx, pipeline := pipeline, root := file })
      pipelines

/-- Embeds `process_pipelines`: the sequential stream over the batch's files —
discovery, per-pipeline dispatch (one at a time, via `then`), and
flattening of every dispatch's artifacts into the final list. -/
def process_pipelines (env : Env) (ctx : ProcessCtx) :
    Except Panic (List OutAsset) :=
  collectExcept (processManifestFile env ctx) ctx.files

/-- The discovered `(manifest-location, declaration)` pairs of a batch, in
stream order; used to state what `process_pipelines` concatenates. -/
def dispatchPairs (env : Env) (ctx : ProcessCtx) :
    List (AbsAssetUrl × Pipeline) :=
  ctx.files.flatMap fun file =>
    match discoverManifest env file with
    | .ok (some ps) => ps.map fun p => (file, p)
    | _ => []

/-- Congruence for `List.flatMap` under pointwise equality on members. -/
theorem flatMap_congr_mem {α β : Type} (l : List α) (f g : α → List β)
    (h : ∀ x ∈ l, f x = g x) : l.flatMap f = l.flatMap g := by
  induction l with
  | nil => rfl
  | cons x xs ih =>
    simp only [List.flatMap_cons]
    rw [h x (List.mem_cons_self x xs), ih fun y hy => h y (List.mem_cons_of_mem x hy)]

/-- A successful `collectExcept` run is the flat concatenation of the
per-element results. -/
theorem collectExcept_ok_eq {α β : Type} (g : α → Except Panic (List β)) :
    ∀ (xs : List α) (rs : List β), collectExcept g xs = .ok rs →
      rs = xs.flatMap fun x => okList (g x) := by
  intro xs
  induction xs with
  | nil =>
    intro rs h
    simp only [collectExcept] at h
    cases h
    rfl
  | cons x xs ih =>
    intro rs h
    simp only [collectExcept] at h
    cases hg : g x with
    | error e => rw [hg] at h; cases h
    | ok r =>
      rw [hg] at h
      cases hc : collectExcept g xs with
      | error e => rw [hc] at h; cases h
      | ok rs2 =>
        rw [hc] at h
        cases h
        rw [List.flatMap_cons]
        rw [← ih rs2 hc]
        simp [okList, hg]

/-- In a successful `collectExcept` run, every element ran successfully. -/
theorem collectExcept_mem_ok {α β : Type} (g : α → Except Panic (List β)) :
    ∀ (xs : List α) (rs : List β) (x : α), x ∈ xs →
      collectExcept g xs = .ok rs → ∃ r, g x = .ok r
  | [], _, x, hm, _ => absurd hm (List.not_mem_nil x)
  | y :: ys, rs, x, hm, h => by
    simp only [collectExcept] at h
    cases hg : g y with
    | error e => rw [hg] at h; cases h
    | ok r =>
      rw [hg] at h
      cases hc : collectExcept g ys with
      | error e => rw [hc] at h; cases h
      | ok rs2 =>
        rcases List.mem_cons.1 hm with hx | hx
        · exact ⟨r, hx ▸ hg⟩
        · exact collectExcept_mem_ok g ys rs2 x hx hc

/-- A panic at any element aborts the whole `collectExcept` run. -/
theorem collectExcept_error_of_mem {α β : Type} (g : α → Except Panic (List β))
    (xs : List α) (x : α) (e : Panic) (hm : x ∈ xs) (h : g x = .error e) :
    ∃ e2, collectExcept g xs = .error e2 := by
  induction xs with
  | nil => cases hm
  | cons y ys ih =>
    rcases List.mem_cons.1 hm with hx | hx
    · subst hx
      exact ⟨e, by simp only [collectExcept, h]⟩
    · cases hg : g y with
      | error e3 => exact ⟨e3, by simp only [collectExcept, hg]⟩
      | ok r =>
        obtain ⟨e2, h2⟩ := ih hx
        exact ⟨e2, by simp only [collectExcept, hg, h2]⟩

/-- When every element produces exactly one artifact, a successful
`collectExcept` run produces exactly one artifact per element. -/
theorem collectExcept_length {α β : Type} (g : α → Except Panic (List β))
    (hone : ∀ x r, g x = .ok r → r.length = 1) :
    ∀ (xs : List α) (rs : List β), collectExcept g xs = .ok rs →
      rs.length = xs.length := by
  intro xs
  induction xs with
  | nil =>
    intro rs h
    simp only [collectExcept] at h
    cases h
    rfl
  | cons x xs ih =>
    intro rs h
    simp only [collectExcept] at h
    cases hg : g x with
    | error e => rw [hg] at h; cases h
    | ok r =>
      rw [hg] at h
      cases hc : collectExcept g xs with
      | error e => rw [hc] at h; cases h
      | ok rs2 =>
        rw [hc] at h
        cases h
        simp only [List.length_append, hone x r hg, ih rs2 hc, List.length_cons]
        omega

/-- The category merge never changes the number of category slots. -/
theorem mergeCats_length :
    ∀ (d : List (List String)) (cs : List (Finset String)),
      (mergeCats d cs).length = cs.length
  | [], [] => rfl
  | _ :: _, [] => rfl
  | [], _ :: _ => rfl
  | _ :: d, _ :: cs => by
    simp only [mergeCats, List.length_cons]
    rw [mergeCats_length d cs]

/-- At every slot the artifact has and the declaration also has, the merged
slot is the set union of the two. -/
theorem mergeCats_getElem? :
    ∀ (d : List (List String)) (cs : List (Finset String)) (i : Nat)
      (cat : List String) (c : Finset String),
      d[i]? = some cat → cs[i]? = some c →
      (mergeCats d cs)[i]? = some (c ∪ cat.toFinset)
  | _, [], i, _, _, _, h2 => by simp at h2
  | [], _ :: _, i, _, _, h1, _ => by simp at h1
  | cat0 :: d, c0 :: cs, 0, cat, c, h1, h2 => by
    simp only [List.getElem?_cons_zero, Option.some.injEq] at h1 h2
    subst h1; subst h2
    simp only [mergeCats, List.getElem?_cons_zero]
  | cat0 :: d, c0 :: cs, i + 1, cat, c, h1, h2 => by
    simp only [List.getElem?_cons_succ] at h1 h2
    simpa only [mergeCats, List.getElem?_cons_succ] using
      mergeCats_getElem? d cs i cat c h1 h2

/-- C1: for every pipeline declaration with tags `T` and every
strategy-produced artifact with tags `T0`, after `Pipeline::process`'s
metadata merge the artifact's tags equal `T0 ++ T`: the declaration's tags
are appended after the artifact's own tags, concatenation with duplicates
and order preserved (`process` maps `mergeAsset` over exactly the
strategy's output, and `mergeAsset` appends). -/
theorem process_tags_concat (p : Pipeline) (env : Env) (ctx : PipelineCtx) :
    (∀ a : OutAsset, (mergeAsset p a).tags = a.tags ++ p.tags) ∧
    p.process env ctx =
      (runStrategy env ctx p.pipeline).map (List.map (mergeAsset p)) := by
  constructor
  · intro a
    rfl
  · cases h : runStrategy env ctx p.pipeline <;>
      simp [Pipeline.process, Except.map, h]

/-- C2: for every index `i` present in the strategy-produced artifact's
categories for which the declaration also has a categories entry at `i`,
the merged artifact's `categories[i]` is the set union of the artifact's
own slot and the declaration's entry (a `Finset`, hence without duplicate
labels). -/
theorem process_categories_union (p : Pipeline) (a : OutAsset) (i : Nat)
    (cat : List String) (c : Finset String)
    (h1 : p.categories[i]? = some cat) (h2 : a.categories[i]? = some c) :
    (mergeAsset p a).categories[i]? = some (c ∪ cat.toFinset) :=
  mergeCats_getElem? p.categories a.categories i cat c h1 h2

/-- C5: the category-merge loop is bounded by the artifact's own category
slots: the merged artifact has exactly as many slots as before, and any
index at or beyond that count (in particular a declaration-only index) has
no slot in the merged artifact. -/
theorem merge_bounded_by_artifact_slots (p : Pipeline) (a : OutAsset) :
    (mergeAsset p a).categories.length = a.categories.length ∧
    ∀ i : Nat, a.categories.length ≤ i → (mergeAsset p a).categories[i]? = none := by
  have hl : (mergeAsset p a).categories.length = a.categories.length :=
    mergeCats_length p.categories a.categories
  refine ⟨hl, fun i hi => List.getElem?_eq_none ?_⟩
  rw [hl]
  exact hi

/-- C7: dispatching any `PipelineConfig` other than the script-bundle kind
hits the `_ => todo!()` arm: `Pipeline::process` panics ("not yet
implemented") and in particular never returns an artifact list. -/
theorem unimplemented_kind_fatal (p : Pipeline) (env : Env) (ctx : PipelineCtx)
    (h : p.pipeline ≠ PipelineConfig.ScriptBundles) :
    p.process env ctx = .error Panic.todoUnimplemented := by
  cases hp : p.pipeline with
  | ScriptBundles => exact absurd hp h
  | Models => simp [Pipeline.process, runStrategy, hp]
  | Materials => simp [Pipeline.process, runStrategy, hp]
  | Audio => simp [Pipeline.process, runStrategy, hp]

/-- C10: the metadata merge of `Pipeline::process` touches only `tags` and
`categories`: every other field of each strategy-produced artifact
(`sub_asset`, `type_`, `hidden`, `name`, `preview`, `content`, `source`)
is returned unchanged, and `process` is exactly `mergeAsset` mapped over
the strategy's output. -/
theorem merge_frame_only_tags_categories (p : Pipeline) (env : Env)
    (ctx : PipelineCtx) :
    (∀ a : OutAsset,
      (mergeAsset p a).sub_asset = a.sub_asset ∧
      (mergeAsset p a).type_ = a.type_ ∧
      (mergeAsset p a).hidden = a.hidden ∧
      (mergeAsset p a).name = a.name ∧
      (mergeAsset p a).preview = a.preview ∧
      (mergeAsset p a).content = a.content ∧
      (mergeAsset p a).source = a.source) ∧
    p.process env ctx =
      (runStrategy env ctx p.pipeline).map (List.map (mergeAsset p)) := by
  constructor
  · intro a
    exact ⟨rfl, rfl, rfl, rfl, rfl, rfl, rfl⟩
  · cases h : runStrategy env ctx p.pipeline <;>
      simp [Pipeline.process, Except.map, h]

/-- Every successful script-bundle transform yields exactly one artifact. -/
theorem scriptBundleTransform_singleton (env : Env) (ctx : PipelineCtx)
    (f : AbsAssetUrl) (r : List OutAsset)
    (h : scriptBundleTransform env ctx f = .ok r) : r.length = 1 := by
  simp only [scriptBundleTransform] at h
  cases hd : env.downloadBytes f with
  | none => rw [hd] at h; cases h
  | some bundle =>
    rw [hd] at h
    cases hf : f.fileName with
    | none => rw [hf] at h; cases h
    | some nm =>
      rw [hf] at h
      cases h
      rfl

/-- C3: the script-bundle dispatch matches exactly the input files whose
extension is the literal `script_bundle`, and its transform produces, per
matched file, exactly one artifact — not hidden, empty tags, empty
(default) categories, `content` at the location the content sink returned
for the file's bytes written at the path of the file relative to the
manifest, and `source` the matched file; a fully successful dispatch yields
exactly one artifact per matched file. -/
theorem scriptBundle_match_transform (env : Env) (ctx : PipelineCtx) :
    (∀ f : AbsAssetUrl, scriptBundlePred f = true ↔ f.extension = some "script_bundle") ∧
    (∀ (file : AbsAssetUrl) (bundle : List UInt8) (nm : String),
      env.downloadBytes file = some bundle → file.fileName = some nm →
      scriptBundleTransform env ctx file = .ok
        [{ sub_asset := none
           type_ := AssetType.ScriptBundle
           hidden := false
           name := nm
           tags := []
           categories := []
           preview := OutAssetPreview.None
           content := OutAssetContent.Content (env.writeFile
             (withExtension (ctx.root.relative_path file.path) "script_bundle") bundle)
           source := some file }]) ∧
    (∀ rs : List OutAsset,
      runStrategy env ctx PipelineConfig.ScriptBundles = .ok rs →
      rs.length = (ctx.process_ctx.files.filter scriptBundlePred).length) := by
  refine ⟨?_, ?_, ?_⟩
  · intro f
    simp [scriptBundlePred]
  · intro file bundle nm h1 h2
    simp [scriptBundleTransform, h1, h2]
  · intro rs h
    simp only [runStrategy, PipelineCtx.process_files] at h
    exact collectExcept_length _ (scriptBundleTransform_singleton env ctx) _ rs h

/-- C4: in the reference behavior both a manifest decode failure in
`process_pipelines` (whether the TOML or the JSON decode) and a per-file
download failure inside the script-bundle transform are panics that abort
the entire batch: `process_pipelines` returns an error and no artifact
list (and the embedded code never invokes the error callback, so neither
failure is reported or isolated). -/
theorem failures_abort_batch (env : Env) (ctx : ProcessCtx) :
    (∀ file : AbsAssetUrl, file ∈ ctx.files →
      strEndsWith file.path "pipeline.toml" = true →
      env.downloadToml file = none →
      ∃ e, process_pipelines env ctx = .error e) ∧
    (∀ file : AbsAssetUrl, file ∈ ctx.files →
      strEndsWith file.path "pipeline.toml" = false →
      strEndsWith file.path "pipeline.json" = true →
      env.downloadJson file = none →
      ∃ e, process_pipelines env ctx = .error e) ∧
    (∀ (m : AbsAssetUrl) (ps : List Pipeline) (p : Pipeline) (f : AbsAssetUrl),
      m ∈ ctx.files → discoverManifest env m = .ok (some ps) → p ∈ ps →
      p.pipeline = PipelineConfig.ScriptBundles →
      f ∈ ctx.files → scriptBundlePred f = true →
      env.downloadBytes f = none →
      ∃ e, process_pipelines env ctx = .error e) := by
  refine ⟨?_, ?_, ?_⟩
  · intro file hmem hsuf hnone
    have hd : discoverManifest env file = .error .unwrapFailure := by
      simp [discoverManifest, hsuf, hnone]
    have hm : processManifestFile env ctx file = .error .unwrapFailure := by
      simp [processManifestFile, hd]
    exact collectExcept_error_of_mem _ _ _ _ hmem hm
  · intro file hmem h1 h2 hnone
    have hd : discoverManifest env file = .error .unwrapFailure := by
      simp [discoverManifest, h1, h2, hnone]
    have hm : processManifestFile env ctx file = .error .unwrapFailure := by
      simp [processManifestFile, hd]
    exact collectExcept_error_of_mem _ _ _ _ hmem hm
  · intro m ps p f hm hd hp hkind hf hpred hnone
    have ht : scriptBundleTransform env
        { process_ctx := ctx, pipeline := p, root := m } f = .error .unwrapFailure := by
      simp [scriptBundleTransform, hnone]
    have hfm : f ∈ ctx.files.filter scriptBundlePred :=
      List.mem_filter.2 ⟨hf, hpred⟩
    obtain ⟨e0, he0⟩ := collectExcept_error_of_mem _ _ _ _ hfm ht
    have hproc : p.process env { process_ctx := ctx, pipeline := p, root := m } =
        .error e0 := by
      simp [Pipeline.process, hkind, runStrategy, PipelineCtx.process_files, he0]
    obtain ⟨e1, he1⟩ := collectExcept_error_of_mem
      (fun pipeline => pipeline.process env
        { process_ctx := ctx, pipeline := pipeline, root := m })
      ps p e0 hp hproc
    have hmf : processManifestFile env ctx m = .error e1 := by
      simp only [processManifestFile, hd, he1]
    exact collectExcept_error_of_mem _ _ _ _ hm hmf

/-- C6: a file is a manifest candidate iff its path ends with
`pipeline.toml` (then decoded as TOML) or `pipeline.json` (then decoded as
JSON); a file matching neither suffix is ignored by discovery and
contributes no pipeline declarations (and hence no artifacts). -/
theorem manifest_candidate_iff_suffix (env : Env) (file : AbsAssetUrl) :
    (discoverManifest env file = .ok none ↔
      strEndsWith file.path "pipeline.toml" = false ∧
      strEndsWith file.path "pipeline.json" = false) ∧
    (∀ ps : List Pipeline, strEndsWith file.path "pipeline.toml" = true →
      env.downloadToml file = some ps →
      discoverManifest env file = .ok (some ps)) ∧
    (∀ ps : List Pipeline, strEndsWith file.path "pipeline.toml" = false →
      strEndsWith file.path "pipeline.json" = true →
      env.downloadJson file = some ps →
      discoverManifest env file = .ok (some ps)) ∧
    (∀ ctx : ProcessCtx, discoverManifest env file = .ok none →
      processManifestFile env ctx file = .ok []) := by
  refine ⟨?_, ?_, ?_, ?_⟩
  · cases h1 : strEndsWith file.path "pipeline.toml" with
    | true =>
      cases ht : env.downloadToml file <;> simp [discoverManifest, h1, ht]
    | false =>
      cases h2 : strEndsWith file.path "pipeline.json" with
      | true =>
        cases hj : env.downloadJson file <;> simp [discoverManifest, h1, h2, hj]
      | false => simp [discoverManifest, h1, h2]
  · intro ps h1 h2
    simp [discoverManifest, h1, h2]
  · intro ps h1 h2 h3
    simp [discoverManifest, h1, h2, h3]
  · intro ctx h
    simp [processManifestFile, h]

/-- C8: when every dispatch succeeds, `process_pipelines` returns exactly
the concatenation of the artifact lists of the `(manifest, declaration)`
pairs discovered in the batch, in stream order, each exactly once. -/
theorem orchestrator_concatenates (env : Env) (ctx : ProcessCtx)
    (L : List OutAsset) (h : process_pipelines env ctx = .ok L) :
    L = (dispatchPairs env ctx).flatMap
      (fun fp => okList (fp.2.process env
        { process_ctx := ctx, pipeline := fp.2, root := fp.1 })) := by
  have h0 : L = ctx.files.flatMap fun f => okList (processManifestFile env ctx f) :=
    collectExcept_ok_eq _ _ _ h
  rw [h0]
  simp only [dispatchPairs]
  rw [List.flatMap_assoc]
  apply flatMap_congr_mem
  intro f hf
  obtain ⟨r, hr⟩ := collectExcept_mem_ok _ _ _ f hf h
  cases hd : discoverManifest env f with
  | error e =>
    simp only [processManifestFile, hd] at hr
    cases hr
  | ok o =>
    cases o with
    | none => simp [processManifestFile, hd, okList]
    | some ps =>
      simp only [processManifestFile, hd] at hr ⊢
      rw [hr]
      simp only [okList]
      rw [List.flatMap_map]
      exact collectExcept_ok_eq _ _ _ hr

/-- A concrete script-bundle declaration with tags and one category entry. -/
def pipeW1 : Pipeline :=
  { pipeline := PipelineConfig.ScriptBundles, sources := [], tags := ["env"],
    categories := [["x", "y"]] }

/-- A concrete script-bundle declaration with no tags and no categories. -/
def pipeW2 : Pipeline :=
  { pipeline := PipelineConfig.ScriptBundles, sources := [], tags := [],
    categories := [] }

/-- A concrete TOML manifest location. -/
def manifestW1 : AbsAssetUrl := ⟨"a/pipeline.toml"⟩

/-- A concrete JSON manifest location. -/
def manifestW2 : AbsAssetUrl := ⟨"b/pipeline.json"⟩

/-- A concrete input file with extension `script_bundle`. -/
def bundleFileW : AbsAssetUrl := ⟨"a/x.script_bundle"⟩

/-- A concrete batch context holding two manifests and one bundle file. -/
def ctxW : ProcessCtx :=
  { files := [manifestW1, manifestW2, bundleFileW], input_file_filter := none }

/-- A concrete environment in which every download succeeds: each manifest
decodes to its one declaration and the sink returns a fixed location. -/
def envW : Env :=
  { downloadBytes := fun _ => some [7]
    writeFile := fun _ _ => ⟨"sink/out"⟩
    downloadToml := fun u => if u = manifestW1 then some [pipeW1] else none
    downloadJson := fun u => if u = manifestW2 then some [pipeW2] else none }

/-- The per-pipeline context for `pipeW1` rooted at the TOML manifest. -/
def pctxW1 : PipelineCtx :=
  { process_ctx := ctxW, pipeline := pipeW1, root := manifestW1 }

/-- The artifact the script-bundle transform produces for `bundleFileW`
under `envW`. -/
def assetW : OutAsset :=
  { sub_asset := none, type_ := AssetType.ScriptBundle, hidden := false,
    name := "x.script_bundle", tags := [], categories := [],
    preview := OutAssetPreview.None,
    content := OutAssetContent.Content ⟨"sink/out"⟩,
    source := some bundleFileW }

/-- A concrete environment in which every download and decode fails. -/
def envF : Env :=
  { downloadBytes := fun _ => none
    writeFile := fun _ _ => ⟨"sink/out"⟩
    downloadToml := fun _ => none
    downloadJson := fun _ => none }

/-- A concrete environment in which both manifests decode but every byte
download fails. -/
def envDF : Env :=
  { downloadBytes := fun _ => none
    writeFile := fun _ _ => ⟨"sink/out"⟩
    downloadToml := fun u => if u = manifestW1 then some [pipeW1] else none
    downloadJson := fun u => if u = manifestW2 then some [pipeW2] else none }

/-- A concrete batch context holding only the JSON manifest. -/
def ctxWJ : ProcessCtx :=
  { files := [manifestW2], input_file_filter := none }

/-- A concrete declaration of the unimplemented model-import kind. -/
def pipeModels : Pipeline :=
  { pipeline := PipelineConfig.Models, sources := [], tags := [],
    categories := [] }

/-- Witness for C2: declared `{x,y}` merged into existing `{y,z}` yields
exactly `{x,y,z}`. -/
theorem process_categories_union_witness :
    (mergeAsset pipeW1
        { assetW with categories := [(["y", "z"] : List String).toFinset] }).categories[0]? =
      some ((["y", "z"] : List String).toFinset ∪ (["x", "y"] : List String).toFinset) ∧
    (["y", "z"] : List String).toFinset ∪ (["x", "y"] : List String).toFinset =
      (["x", "y", "z"] : List String).toFinset := by
  refine ⟨process_categories_union pipeW1
    { assetW with categories := [(["y", "z"] : List String).toFinset] }
    0 ["x", "y"] (["y", "z"] : List String).toFinset rfl rfl, by decide⟩

/-- Witness for C3, at the concrete bundle file and successful environment. -/
theorem scriptBundle_match_transform_witness :
    (scriptBundlePred bundleFileW = true ↔
      bundleFileW.extension = some "script_bundle") ∧
    scriptBundleTransform envW pctxW1 bundleFileW = .ok [assetW] ∧
    [assetW].length = (ctxW.files.filter scriptBundlePred).length := by
  refine ⟨(scriptBundle_match_transform envW pctxW1).1 bundleFileW, ?_, ?_⟩
  · exact (scriptBundle_match_transform envW pctxW1).2.1 bundleFileW [7]
      "x.script_bundle" rfl rfl
  · exact (scriptBundle_match_transform envW pctxW1).2.2 [assetW] rfl

/-- Witness for C4: a failed TOML decode aborts the batch, a failed JSON
decode aborts the batch, and a failed download inside the script-bundle
transform of a discovered pipeline aborts the batch. -/
theorem failures_abort_batch_witness :
    (∃ e, process_pipelines envF ctxW = .error e) ∧
    (∃ e, process_pipelines envF ctxWJ = .error e) ∧
    (∃ e, process_pipelines envDF ctxW = .error e) :=
  ⟨(failures_abort_batch envF ctxW).1 manifestW1 (by decide) rfl rfl,
    (failures_abort_batch envF ctxWJ).2.1 manifestW2 (by decide) rfl rfl rfl,
    (failures_abort_batch envDF ctxW).2.2 manifestW1 [pipeW1] pipeW1 bundleFileW
      (by decide) rfl (by decide) rfl (by decide) rfl rfl⟩

/-- Witness for C5: a declaration entry at index 0 is ignored when the
artifact has no category slots, and no slot is created. -/
theorem merge_bounded_by_artifact_slots_witness :
    (mergeAsset pipeW1 assetW).categories.length = assetW.categories.length ∧
    (mergeAsset pipeW1 assetW).categories[0]? = none :=
  ⟨(merge_bounded_by_artifact_slots pipeW1 assetW).1,
    (merge_bounded_by_artifact_slots pipeW1 assetW).2 0 (by decide)⟩

/-- Witness for C6: the TOML manifest decodes as TOML, the JSON one as
JSON, and the bundle file is ignored and contributes nothing. -/
theorem manifest_candidate_iff_suffix_witness :
    discoverManifest envW manifestW1 = .ok (some [pipeW1]) ∧
    discoverManifest envW manifestW2 = .ok (some [pipeW2]) ∧
    discoverManifest envW bundleFileW = .ok none ∧
    processManifestFile envW ctxW bundleFileW = .ok [] := by
  refine ⟨(manifest_candidate_iff_suffix envW manifestW1).2.1 [pipeW1] rfl rfl,
    (manifest_candidate_iff_suffix envW manifestW2).2.2.1 [pipeW2] rfl rfl rfl,
    (manifest_candidate_iff_suffix envW bundleFileW).1.2 ⟨rfl, rfl⟩,
    (manifest_candidate_iff_suffix envW bundleFileW).2.2.2 ctxW
      ((manifest_candidate_iff_suffix envW bundleFileW).1.2 ⟨rfl, rfl⟩)⟩

/-- Witness for C7: dispatching the model-import kind is the fatal
`todo!()` panic. -/
theorem unimplemented_kind_fatal_witness :
    pipeModels.process envW pctxW1 = .error Panic.todoUnimplemented :=
  unimplemented_kind_fatal pipeModels envW pctxW1 (by decide)

/-- Witness for C8: with two manifests in the batch, the final list holds
both manifests' artifacts exactly once each, in dispatch order. -/
theorem orchestrator_concatenates_witness :
    [{ assetW with tags := ["env"] }, assetW] =
      (dispatchPairs envW ctxW).flatMap
        (fun fp => okList (fp.2.process envW
          { process_ctx := ctxW, pipeline := fp.2, root := fp.1 })) :=
  orchestrator_concatenates envW ctxW [{ assetW with tags := ["env"] }, assetW] rfl
